import Mathlib

/-!
Verification of the update-server core of `simple-app-update-server`:
version comparison, release-note aggregation, platform-artifact
resolution, the HTTP handlers and routing of `server.ts`, the
`stats.ts` version comparator, and the resilient cache contract.

Functions present in the repository sources (`github.ts`, `stats.ts`,
`server.ts`) are embedded directly from the code.  The repository's
`version.ts` and `cache.ts` modules are not available; their
definitions are modelled from the specification and marked as such in
their doc comments.
-/

set_option autoImplicit false

namespace UpdateServer

/-! ## Kernel-reducible string primitives

The Lean core versions of `splitOn`, `trim`, `take`, `toNat?` and
`intercalate` are defined by position-based well-founded recursion and
do not reduce inside the kernel, so the JavaScript string operations
the code uses are embedded structurally over character lists. -/

/-- Split a character list at every occurrence of the separator
character, keeping empty pieces, as JavaScript `split`. -/
def splitOnCharList (sep : Char) : List Char → List (List Char)
  | [] => [[]]
  | x :: xs =>
    let rest := splitOnCharList sep xs
    if x = sep then [] :: rest
    else
      match rest with
      | h :: t => (x :: h) :: t
      | [] => [[x]]

/-- JavaScript `s.split(".")`. -/
def splitDot (s : String) : List String :=
  (splitOnCharList '.' s.toList).map List.asString

/-- Base-10 parse of a string that must consist entirely of digits;
`none` otherwise (the behavior of `String.toNat?`). -/
def strToNat? (s : String) : Option Nat :=
  let cs := s.toList
  if cs ≠ [] && cs.all Char.isDigit then
    some (cs.foldl (fun acc c => acc * 10 + (c.toNat - 48)) 0)
  else none

/-- JavaScript `s.trim()`: remove leading and trailing whitespace. -/
def jsTrim (s : String) : String :=
  (((s.toList.dropWhile Char.isWhitespace).reverse.dropWhile
      Char.isWhitespace).reverse).asString

/-- JavaScript `parts.join(sep)`. -/
def jsJoin (sep : String) : List String → String
  | [] => ""
  | [x] => x
  | x :: xs => x ++ sep ++ jsJoin sep xs

/-! ## Version validation and comparison (modelled from the spec) -/

/-- Modelled from the spec: `isValid` from the missing `src/version.ts`.
True iff the string is non-empty and every dot-delimited segment parses
as a base-10 non-negative integer (leading zeros permitted). -/
def isValidVersion (v : String) : Bool :=
  v ≠ "" && (splitDot v).all fun s => (strToNat? s).isSome

/-- Modelled from the spec: a segment of a dot-separated version string
parses as its base-10 value; a non-numeric segment parses as 0. -/
def parseSegment (s : String) : Nat :=
  (strToNat? s).getD 0

/-- Comparison of the remaining right-hand segments once the left tuple
is exhausted: each missing left segment counts as 0. -/
def cmpZeroAgainst : List Nat → Int
  | [] => 0
  | y :: ys => if 0 < y then -1 else cmpZeroAgainst ys

/-- Modelled from the spec: lexicographic comparison of integer tuples,
padding the shorter tuple with trailing zeros out to the longer length.
Returns `-1`, `0` or `1`. -/
def tupleCmp : List Nat → List Nat → Int
  | [], ys => cmpZeroAgainst ys
  | x :: xs, [] => if 0 < x then 1 else tupleCmp xs []
  | x :: xs, y :: ys =>
    if x < y then -1 else if y < x then 1 else tupleCmp xs ys

/-- Modelled from the spec: `compare` from the missing `src/version.ts`.
Compares two version strings as dot-separated integer tuples, padding
the shorter tuple with trailing zeros, lexicographically on the tuple. -/
def compareVersions (a b : String) : Int :=
  tupleCmp ((splitDot a).map parseSegment) ((splitDot b).map parseSegment)

/-! ## The `stats.ts` version comparator (`verKey` / `sortVersions`) -/

/-- JavaScript `Number.parseInt(s, 10)`: skip leading whitespace, read an
optional sign, then the longest prefix of decimal digits; `none` (NaN)
when no digit follows. -/
def jsParseInt (s : String) : Option Int :=
  let cs := s.toList.dropWhile (·.isWhitespace)
  let signAndRest : Bool × List Char :=
    match cs with
    | '-' :: t => (true, t)
    | '+' :: t => (false, t)
    | t => (false, t)
  let digits := signAndRest.2.takeWhile (·.isDigit)
  if digits.isEmpty then none
  else
    let n : Nat := digits.foldl (fun acc c => acc * 10 + (c.toNat - 48)) 0
    some (if signAndRest.1 then -(n : Int) else (n : Int))

/-- `verKey` from `stats.ts`: split on dots, `Number.parseInt(s, 10) || 0`
per segment (`NaN` becomes 0; a parsed 0 stays 0). -/
def verKey (v : String) : List Int :=
  (splitDot v).map fun s => (jsParseInt s).getD 0

/-- The loop of the comparator in `sortVersions` when the left key is
exhausted first (`ka[i] || 0` is 0 there). -/
def diffZeroAgainst : List Int → Int
  | [] => 0
  | y :: ys => if (0 : Int) - y ≠ 0 then 0 - y else diffZeroAgainst ys

/-- The loop body of the comparator in `sortVersions` (`stats.ts`): walk
both keys up to the longer length, treating missing segments as 0
(`ka[i] || 0`), and return the first non-zero difference, else 0. -/
def tupleDiff : List Int → List Int → Int
  | [], ys => diffZeroAgainst ys
  | x :: xs, [] => if x ≠ 0 then x else tupleDiff xs []
  | x :: xs, y :: ys => if x - y ≠ 0 then x - y else tupleDiff xs ys

/-- The comparator passed to `sort` by `sortVersions` in `stats.ts`. -/
def sortVersionsCompare (a b : String) : Int :=
  tupleDiff (verKey a) (verKey b)

/-- `sortVersions` from `stats.ts`: sort version strings by the
comparator (a sort is stable; JavaScript `Array.prototype.sort` with a
consistent comparator orders by it). -/
def sortVersions (versions : List String) : List String :=
  versions.mergeSort fun a b => sortVersionsCompare a b ≤ 0

/-! ## Data model of `github.ts` -/

/-- `VersionNotes` from `github.ts`. -/
structure VersionNotes where
  version : String
  notes : String
  deriving DecidableEq, Repr

/-- The per-platform artifact entry of `LatestJson.platforms`. -/
structure PlatformEntry where
  signature : String
  url : String
  deriving DecidableEq, Repr

/-- `LatestJson` from `github.ts`; the `platforms` record is embedded as
an association list with unique keys (JavaScript object lookup is the
first matching key). -/
structure LatestJson where
  version : String
  notes : String
  pub_date : String
  platforms : List (String × PlatformEntry)
  deriving DecidableEq, Repr

/-- `SimpleRelease` from `github.ts`. -/
structure SimpleRelease where
  version : String
  notes : String
  pub_date : String
  deriving DecidableEq, Repr

/-- `PlatformUpdate` from `github.ts`. -/
structure PlatformUpdate where
  version : String
  notes : String
  pub_date : String
  url : String
  signature : String
  deriving DecidableEq, Repr

/-- `GitHubRelease` from `github.ts` (the `assets` field feeds only the
network fetch layer and is not embedded). -/
structure GitHubRelease where
  tag_name : String
  body : Option String
  published_at : Option String
  deriving DecidableEq, Repr

/-! ## Release-note extraction (`github.ts`) -/

/-- Index of the first occurrence of `pat` in a character list, as in
JavaScript `String.prototype.indexOf` (`none` for `-1`). -/
def findSub (pat : List Char) : List Char → Option Nat
  | [] => if pat.isPrefixOf [] then some 0 else none
  | c :: rest =>
    if pat.isPrefixOf (c :: rest) then some 0
    else (findSub pat rest).map (· + 1)

/-- JavaScript `hay.indexOf(pat)` returning `none` instead of `-1`. -/
def jsIndexOf (hay pat : String) : Option Nat :=
  findSub pat.toList hay.toList

/-- `stripDownloadSection` from `github.ts`: cut the body at the first
`"## Download"` heading (if any) and trim. -/
def stripDownloadSection (body : String) : String :=
  match jsIndexOf body "## Download" with
  | none => jsTrim body
  | some idx => jsTrim (body.toList.take idx).asString

/-- The notes text a release contributes in `extractVersionNotes`:
`r.body ? stripDownloadSection(r.body) : ""`.  (A present-but-empty body
is falsy in JavaScript, but `stripDownloadSection ""` is `""` as well,
so the `Option` match is equivalent.) -/
def strippedBody (r : GitHubRelease) : String :=
  match r.body with
  | some b => stripDownloadSection b
  | none => ""

/-- `extractVersionNotes` from `github.ts`. -/
def extractVersionNotes (releases : List GitHubRelease) (tagPrefix : String) :
    List VersionNotes :=
  (releases.map fun r =>
    { version := (r.tag_name.toList.drop tagPrefix.toList.length).asString
      notes := strippedBody r }) |>.filter fun n => n.notes.toList.length > 0

/-! ## Note aggregation and platform resolution (`github.ts`) -/

/-- The `relevant` list computed by `aggregateNotes` in `github.ts`. -/
def relevantNotes (allNotes : List VersionNotes) (currentVersion : String) :
    List VersionNotes :=
  allNotes.filter fun n =>
    isValidVersion n.version && 0 < compareVersions n.version currentVersion

/-- `aggregateNotes` from `github.ts`. -/
def aggregateNotes (allNotes : List VersionNotes) (currentVersion : String) :
    String :=
  let relevant := relevantNotes allNotes currentVersion
  if relevant.length = 0 then ""
  else if relevant.length = 1 then (relevant.headD ⟨"", ""⟩).notes
  else jsJoin "\n\n"
    (relevant.map fun n => "## " ++ n.version ++ "\n" ++ n.notes)

/-- `findPlatformUpdate` from `github.ts`. -/
def findPlatformUpdate (latest : LatestJson) (target arch notes : String) :
    Option PlatformUpdate :=
  let key := target ++ "-" ++ arch
  match latest.platforms.lookup key with
  | none => none
  | some platform =>
    some { version := latest.version
           notes := notes
           pub_date := latest.pub_date
           url := platform.url
           signature := platform.signature }

/-! ## The resilient cache (modelled from the spec) -/

/-- Modelled from the spec: the state of the missing `src/cache.ts`
`Cache<T>` — an optional cached entry `(value, fetchedAt)` plus the TTL
in milliseconds.  The producer and the clock are supplied to `cacheGet`
explicitly since effects are not embedded. -/
structure CacheState (T : Type) where
  entry : Option (T × Nat)
  ttlMs : Nat
  deriving DecidableEq, Repr

/-- Modelled from the spec: whether a cached entry exists and is within
its TTL (`now - entry.fetchedAt < ttlMs`); when false, a `get` triggers
a refresh. -/
def cacheIsFresh {T : Type} (st : CacheState T) (now : Nat) : Bool :=
  match st.entry with
  | some (_, fetchedAt) => now - fetchedAt < st.ttlMs
  | none => false

/-- Modelled from the spec: one refresh step.  On producer success the
entry is fully replaced and the new value returned; on producer failure
the previous entry is left untouched and its value (or `null`) is
returned — stale-on-error.  No exception channel exists in the result
type: a failure is never propagated to the caller. -/
def cacheRefresh {T : Type} (st : CacheState T) (now : Nat)
    (producerResult : Except String T) : Option T × CacheState T :=
  match producerResult with
  | Except.ok v => (some v, { st with entry := some (v, now) })
  | Except.error _ => (st.entry.map Prod.fst, st)

/-- Modelled from the spec: `Cache.get()` — serve a fresh entry without
calling the producer, otherwise refresh with the producer's outcome. -/
def cacheGet {T : Type} (st : CacheState T) (now : Nat)
    (producerResult : Except String T) : Option T × CacheState T :=
  if cacheIsFresh st now then (st.entry.map Prod.fst, st)
  else cacheRefresh st now producerResult

/-! ## HTTP handlers and routing (`server.ts`) -/

/-- The body of the `/version` 200 response for simple products. -/
structure SimplePayload where
  version : String
  notes : String
  pub_date : String
  deriving DecidableEq, Repr

/-- The body shapes the server writes. -/
inductive RespBody where
  | empty
  | errJson (msg : String)
  | okJson
  | swScript
  | statsPage
  | platformJson (u : PlatformUpdate)
  | simpleJson (p : SimplePayload)
  | versionInfoJson (version pub_date : String)
  | plainText (s : String)
  deriving DecidableEq, Repr

/-- An HTTP response: status code and body. -/
structure Resp where
  status : Nat
  body : RespBody
  deriving DecidableEq, Repr

/-- `handleTauriUpdateCheck` from `server.ts`.  The cached latest value
is passed explicitly (`none` embeds a `cache.get()` that yielded null);
the analytics log call is I/O and not embedded. -/
def handleTauriUpdateCheck (cached : Option LatestJson)
    (storeNotes : List VersionNotes) (target arch currentVersion : String) :
    Resp :=
  match cached with
  | none => ⟨500, RespBody.errJson "Unable to fetch release info"⟩
  | some latest =>
    let notes := aggregateNotes storeNotes currentVersion
    match findPlatformUpdate latest target arch notes with
    | some platform =>
      if 0 < compareVersions latest.version currentVersion then
        ⟨200, RespBody.platformJson platform⟩
      else ⟨204, RespBody.empty⟩
    | none => ⟨204, RespBody.empty⟩

/-- JavaScript truthiness of the optional `currentVersion` string. -/
def strTruthy : Option String → Bool
  | none => false
  | some s => s ≠ ""

/-- `handleVersionCheck` from `server.ts` for simple products. -/
def handleVersionCheck (cached : Option SimpleRelease)
    (storeNotes : List VersionNotes) (currentVersion : Option String) :
    Resp :=
  match cached with
  | none => ⟨500, RespBody.errJson "Unable to fetch release info"⟩
  | some latest =>
    let payloadNotes :=
      match currentVersion with
      | some cv => if cv = "" then latest.notes
                   else aggregateNotes storeNotes cv
      | none => latest.notes
    let ok200 : Resp :=
      ⟨200, RespBody.simpleJson
        { version := latest.version
          notes := payloadNotes
          pub_date := latest.pub_date }⟩
    match currentVersion with
    | some cv =>
      if cv = "" then ok200
      else if 0 < compareVersions latest.version cv then ok200
      else ⟨204, RespBody.empty⟩
    | none => ok200

/-- The routing-relevant fields of `ProductConfig`. -/
structure ProductCfg where
  id : String
  tauriUpdates : Bool
  deriving DecidableEq, Repr

/-- The request dispatch of `server.ts` after product and state
resolution, over the non-empty path segments.  The caches' current
values and the notes store's contents are passed explicitly. -/
def serverRoute (product : ProductCfg) (segments : List String)
    (tauriLatest : Option LatestJson) (simpleLatest : Option SimpleRelease)
    (storeNotes : List VersionNotes) : Resp :=
  match segments with
  | "health" :: _ => ⟨200, RespBody.okJson⟩
  | "sw.js" :: _ => ⟨200, RespBody.swScript⟩
  | "stats" :: _ => ⟨200, RespBody.statsPage⟩
  | ["tauri", target, arch, currentVersion] =>
    if !product.tauriUpdates then
      ⟨404, RespBody.errJson "This product does not use Tauri updates"⟩
    else if !isValidVersion currentVersion then
      ⟨400, RespBody.errJson "Invalid version format"⟩
    else handleTauriUpdateCheck tauriLatest storeNotes target arch currentVersion
  | "version" :: rest =>
    let currentVersion := rest.head?
    if strTruthy currentVersion &&
        !isValidVersion (currentVersion.getD "") then
      ⟨400, RespBody.errJson "Invalid version format"⟩
    else if product.tauriUpdates then
      match tauriLatest with
      | none => ⟨500, RespBody.errJson "Unable to fetch release info"⟩
      | some latest => ⟨200, RespBody.versionInfoJson latest.version latest.pub_date⟩
    else handleVersionCheck simpleLatest storeNotes currentVersion
  | _ => ⟨404, RespBody.plainText "Not Found"⟩

/-! ## Spec-side notions used to state the claims -/

/-- Pad an integer tuple with trailing zeros out to length `n` (the
spec's description of how the shorter version tuple is extended). -/
def padTo (n : Nat) (xs : List Int) : List Int :=
  xs ++ List.replicate (n - xs.length) 0

/-- First-difference lexicographic comparison of two equal-length
integer tuples, the spec's description of the version order. -/
def lexFirstDiff : List Int → List Int → Int
  | x :: xs, y :: ys => if x = y then lexFirstDiff xs ys else x - y
  | _, _ => 0

/-! ## Lemmas about the comparators -/

theorem tupleDiff_nil_right (xs : List Int) :
    tupleDiff xs [] = -(diffZeroAgainst xs) := by
  induction xs with
  | nil => rfl
  | cons x xs ih =>
    simp only [tupleDiff, diffZeroAgainst]
    by_cases h : x = 0
    · have h2 : ¬ ((0 : Int) - x ≠ 0) := by omega
      rw [if_neg (by omega : ¬ x ≠ 0), if_neg h2, ih]
    · have h2 : (0 : Int) - x ≠ 0 := by omega
      rw [if_pos h, if_pos h2]
      omega

theorem tupleDiff_antisymm (xs ys : List Int) :
    tupleDiff xs ys = -(tupleDiff ys xs) := by
  induction xs generalizing ys with
  | nil =>
    simp only [tupleDiff, tupleDiff_nil_right, neg_neg]
  | cons x xs ih =>
    cases ys with
    | nil => rw [tupleDiff_nil_right, tupleDiff]
    | cons y ys =>
      simp only [tupleDiff]
      by_cases h : x - y = 0
      · rw [if_neg (by omega : ¬ x - y ≠ 0), if_neg (by omega : ¬ y - x ≠ 0),
          ih ys]
      · rw [if_pos h, if_pos (by omega : y - x ≠ 0)]
        omega

theorem tupleDiff_self (xs : List Int) : tupleDiff xs xs = 0 := by
  induction xs with
  | nil => rfl
  | cons x xs ih =>
    simp only [tupleDiff]
    rw [if_neg (by omega : ¬ x - x ≠ 0), ih]

theorem diffZeroAgainst_eq_lex (ys : List Int) :
    diffZeroAgainst ys = lexFirstDiff (List.replicate ys.length 0) ys := by
  induction ys with
  | nil => rfl
  | cons y ys ih =>
    simp only [diffZeroAgainst, List.length_cons, List.replicate, lexFirstDiff]
    by_cases h : y = 0
    · rw [if_neg (by omega : ¬ (0 : Int) - y ≠ 0), if_pos (by omega : (0 : Int) = y), ih]
    · rw [if_pos (by omega : (0 : Int) - y ≠ 0), if_neg (by omega : ¬ (0 : Int) = y)]

theorem tupleDiff_nil_eq_lex (xs : List Int) :
    tupleDiff xs [] = lexFirstDiff xs (List.replicate xs.length 0) := by
  induction xs with
  | nil => rfl
  | cons x xs ih =>
    simp only [tupleDiff, List.length_cons, List.replicate, lexFirstDiff]
    by_cases h : x = 0
    · rw [if_neg (by omega : ¬ x ≠ 0), if_pos h, ih]
    · rw [if_pos h, if_neg h]
      omega

theorem padTo_cons (x : Int) (xs : List Int) (m : Nat) :
    padTo (m + 1) (x :: xs) = x :: padTo m xs := by
  simp [padTo, Nat.succ_sub_succ]

theorem tupleDiff_eq_lex_pad (xs ys : List Int) :
    tupleDiff xs ys =
      lexFirstDiff (padTo (max xs.length ys.length) xs)
        (padTo (max xs.length ys.length) ys) := by
  induction xs generalizing ys with
  | nil =>
    have : padTo (max ([] : List Int).length ys.length) ys = ys := by
      simp [padTo]
    rw [this]
    have : padTo (max ([] : List Int).length ys.length) ([] : List Int) =
        List.replicate ys.length 0 := by
      simp [padTo]
    rw [this]
    exact diffZeroAgainst_eq_lex ys
  | cons x xs ih =>
    cases ys with
    | nil =>
      have h1 : padTo (max (x :: xs).length ([] : List Int).length) (x :: xs) =
          x :: xs := by
        simp [padTo]
      have h2 : padTo (max (x :: xs).length ([] : List Int).length)
          ([] : List Int) = List.replicate (x :: xs).length 0 := by
        simp [padTo]
      rw [h1, h2]
      exact tupleDiff_nil_eq_lex (x :: xs)
    | cons y ys =>
      have hmax : max (x :: xs).length (y :: ys).length =
          max xs.length ys.length + 1 := by
        simp only [List.length_cons]
        omega
      rw [hmax, padTo_cons, padTo_cons]
      simp only [tupleDiff, lexFirstDiff]
      by_cases h : x = y
      · rw [if_neg (by omega : ¬ x - y ≠ 0), if_pos h, ih ys]
      · rw [if_pos (by omega : x - y ≠ 0), if_neg h]

theorem tupleCmp_nil_right (xs : List Nat) :
    tupleCmp xs [] = -(cmpZeroAgainst xs) := by
  induction xs with
  | nil => rfl
  | cons x xs ih =>
    simp only [tupleCmp, cmpZeroAgainst]
    by_cases h : 0 < x
    · rw [if_pos h, if_pos h]
      rfl
    · rw [if_neg h, if_neg h, ih]

theorem tupleCmp_antisymm (xs ys : List Nat) :
    tupleCmp xs ys = -(tupleCmp ys xs) := by
  induction xs generalizing ys with
  | nil => simp only [tupleCmp, tupleCmp_nil_right, neg_neg]
  | cons x xs ih =>
    cases ys with
    | nil => rw [tupleCmp_nil_right, tupleCmp]
    | cons y ys =>
      simp only [tupleCmp]
      rcases Nat.lt_trichotomy x y with h | h | h
      · rw [if_pos h, if_pos h, if_neg (Nat.lt_asymm h)]
      · rw [if_neg (by omega : ¬ x < y), if_neg (by omega : ¬ y < x),
          if_neg (by omega : ¬ y < x), if_neg (by omega : ¬ x < y), ih ys]
      · rw [if_neg (Nat.lt_asymm h), if_pos h, if_pos h, neg_neg]

theorem tupleCmp_self (xs : List Nat) : tupleCmp xs xs = 0 := by
  induction xs with
  | nil => rfl
  | cons x xs ih =>
    simp only [tupleCmp]
    rw [if_neg (by omega : ¬ x < x), if_neg (by omega : ¬ x < x), ih]

/-- C8: the `stats.ts` version comparator (`sortVersions`'s comparator
over `verKey` tuples) and the spec-modelled `compareVersions` both
satisfy `compare(a, b) = -compare(b, a)` and `compare(a, a) = 0`, both
order dot-separated integer tuples lexicographically after padding the
shorter tuple with trailing zeros (stated exactly for the `stats.ts`
comparator), and both order the spec's examples (`"1.2" = "1.2.0"`,
`"2.0" > "1.99"`, `"0.1.21" > "0.1.20"`). -/
theorem c8_version_compare_properties :
    (∀ a b : String, sortVersionsCompare a b = -(sortVersionsCompare b a))
    ∧ (∀ a : String, sortVersionsCompare a a = 0)
    ∧ (∀ a b : String, sortVersionsCompare a b =
        lexFirstDiff (padTo (max (verKey a).length (verKey b).length) (verKey a))
          (padTo (max (verKey a).length (verKey b).length) (verKey b)))
    ∧ sortVersionsCompare "1.2" "1.2.0" = 0
    ∧ 0 < sortVersionsCompare "2.0" "1.99"
    ∧ 0 < sortVersionsCompare "0.1.21" "0.1.20"
    ∧ (∀ a b : String, compareVersions a b = -(compareVersions b a))
    ∧ (∀ a : String, compareVersions a a = 0)
    ∧ compareVersions "1.2" "1.2.0" = 0
    ∧ 0 < compareVersions "2.0" "1.99"
    ∧ 0 < compareVersions "0.1.21" "0.1.20" := by
  refine ⟨fun a b => tupleDiff_antisymm _ _, fun a => tupleDiff_self _,
    fun a b => tupleDiff_eq_lex_pad _ _, by decide, by decide, by decide,
    fun a b => tupleCmp_antisymm _ _, fun a => tupleCmp_self _,
    by decide, by decide, by decide⟩

/-! ## Claims about `aggregateNotes`, `extractVersionNotes` and
`findPlatformUpdate` -/

/-- C1 counterexample: `aggregateNotes` performs no sorting.  With two
valid versions newer than the client's, both given newest-first (the
order GitHub returns releases), the result keeps the input order —
`0.1.21` before `0.1.20` — not ascending version order. -/
theorem c1_counterexample :
    aggregateNotes [⟨"0.1.21", "A"⟩, ⟨"0.1.20", "B"⟩] "0.1.18" =
        "## 0.1.21\nA\n\n## 0.1.20\nB"
    ∧ aggregateNotes [⟨"0.1.21", "A"⟩, ⟨"0.1.20", "B"⟩] "0.1.18" ≠
        "## 0.1.20\nB\n\n## 0.1.21\nA" := by
  constructor
  · decide
  · decide

/-- C1 (amended): when more than one note has a valid version strictly
newer than `currentVersion`, `aggregateNotes` returns those notes as
`"## {version}\n{notes}"` sections joined by a blank line, in the order
the notes appear in the input list (no reordering is performed). -/
theorem c1_aggregateNotes_sections_input_order
    (allNotes : List VersionNotes) (currentVersion : String)
    (h : 2 ≤ (relevantNotes allNotes currentVersion).length) :
    aggregateNotes allNotes currentVersion =
      jsJoin "\n\n" ((relevantNotes allNotes currentVersion).map
        fun n => "## " ++ n.version ++ "\n" ++ n.notes) := by
  unfold aggregateNotes
  rw [if_neg (by omega), if_neg (by omega)]

theorem c1_aggregateNotes_sections_input_order_witness :
    2 ≤ (relevantNotes [⟨"0.1.21", "A"⟩, ⟨"0.1.19", "B"⟩] "0.1.18").length
    ∧ aggregateNotes [⟨"0.1.21", "A"⟩, ⟨"0.1.19", "B"⟩] "0.1.18" =
        "## 0.1.21\nA\n\n## 0.1.19\nB" :=
  ⟨by decide,
    c1_aggregateNotes_sections_input_order
      [⟨"0.1.21", "A"⟩, ⟨"0.1.19", "B"⟩] "0.1.18" (by decide)⟩

/-- C6: `aggregateNotes` keeps exactly the entries whose version passes
`isValid` and compares strictly greater than `currentVersion`; zero
matches yield the empty string and a single match yields its raw notes
text with no heading. -/
theorem c6_aggregateNotes_filter_and_small_cases
    (allNotes : List VersionNotes) (currentVersion : String) :
    (∀ n : VersionNotes, n ∈ relevantNotes allNotes currentVersion ↔
      n ∈ allNotes ∧ isValidVersion n.version = true ∧
        0 < compareVersions n.version currentVersion)
    ∧ (relevantNotes allNotes currentVersion = [] →
        aggregateNotes allNotes currentVersion = "")
    ∧ (∀ n : VersionNotes, relevantNotes allNotes currentVersion = [n] →
        aggregateNotes allNotes currentVersion = n.notes) := by
  refine ⟨fun n => ?_, fun h => ?_, fun n h => ?_⟩
  · simp [relevantNotes, List.mem_filter, and_assoc]
  · simp [aggregateNotes, h]
  · simp [aggregateNotes, h]

theorem c6_aggregateNotes_filter_and_small_cases_witness :
    (⟨"0.1.21", "A"⟩ ∈
        relevantNotes [⟨"0.1.21", "A"⟩, ⟨"oops", "X"⟩, ⟨"0.1.19", "Y"⟩] "0.1.20"
      ↔ (⟨"0.1.21", "A"⟩ : VersionNotes) ∈
          [⟨"0.1.21", "A"⟩, ⟨"oops", "X"⟩, ⟨"0.1.19", "Y"⟩]
        ∧ isValidVersion "0.1.21" = true
        ∧ 0 < compareVersions "0.1.21" "0.1.20")
    ∧ aggregateNotes [⟨"0.1.21", "A"⟩, ⟨"oops", "X"⟩, ⟨"0.1.19", "Y"⟩] "0.1.20"
        = "A" :=
  ⟨(c6_aggregateNotes_filter_and_small_cases
      [⟨"0.1.21", "A"⟩, ⟨"oops", "X"⟩, ⟨"0.1.19", "Y"⟩] "0.1.20").1 ⟨"0.1.21", "A"⟩,
    (c6_aggregateNotes_filter_and_small_cases
      [⟨"0.1.21", "A"⟩, ⟨"oops", "X"⟩, ⟨"0.1.19", "Y"⟩] "0.1.20").2.2
      ⟨"0.1.21", "A"⟩ (by decide)⟩

/-- C5: `findPlatformUpdate` returns `none` exactly when the key
`"{target}-{arch}"` is absent from `latest.platforms`; when the key is
present it returns the manifest's version and pub_date, the artifact's
url and signature, and the caller-supplied notes. -/
theorem c5_findPlatformUpdate_key_lookup
    (latest : LatestJson) (target arch notes : String) :
    (findPlatformUpdate latest target arch notes = none ↔
      latest.platforms.lookup (target ++ "-" ++ arch) = none)
    ∧ (∀ art : PlatformEntry,
        latest.platforms.lookup (target ++ "-" ++ arch) = some art →
        findPlatformUpdate latest target arch notes =
          some ⟨latest.version, notes, latest.pub_date, art.url, art.signature⟩) := by
  unfold findPlatformUpdate
  cases h : latest.platforms.lookup (target ++ "-" ++ arch) with
  | none => simp [h]
  | some art => simp [h]

theorem c5_findPlatformUpdate_key_lookup_witness :
    findPlatformUpdate
        ⟨"0.1.21", "n", "2026-02-11", [("darwin-aarch64", ⟨"sig-d", "url-d"⟩)]⟩
        "darwin" "aarch64" "NOTES" =
      some ⟨"0.1.21", "NOTES", "2026-02-11", "url-d", "sig-d"⟩
    ∧ findPlatformUpdate
        ⟨"0.1.21", "n", "2026-02-11", [("darwin-aarch64", ⟨"sig-d", "url-d"⟩)]⟩
        "freebsd" "aarch64" "NOTES" = none :=
  ⟨(c5_findPlatformUpdate_key_lookup
      ⟨"0.1.21", "n", "2026-02-11", [("darwin-aarch64", ⟨"sig-d", "url-d"⟩)]⟩
      "darwin" "aarch64" "NOTES").2 ⟨"sig-d", "url-d"⟩ (by decide),
    (c5_findPlatformUpdate_key_lookup
      ⟨"0.1.21", "n", "2026-02-11", [("darwin-aarch64", ⟨"sig-d", "url-d"⟩)]⟩
      "freebsd" "aarch64" "NOTES").1.mpr (by decide)⟩

/-- C10: the output of `findPlatformUpdate` is unchanged when only the
manifest's top-level `notes` field differs, and the notes of a resolved
update always equal the caller-supplied notes argument. -/
theorem c10_findPlatformUpdate_notes_independent
    (latest : LatestJson) (manifestNotes target arch notes : String) :
    findPlatformUpdate { latest with notes := manifestNotes } target arch notes =
      findPlatformUpdate latest target arch notes
    ∧ (∀ u : PlatformUpdate,
        findPlatformUpdate latest target arch notes = some u →
        u.notes = notes) := by
  unfold findPlatformUpdate
  cases h : latest.platforms.lookup (target ++ "-" ++ arch) with
  | none => simp [h]
  | some art => simp [h]

theorem c10_findPlatformUpdate_notes_independent_witness :
    (⟨"0.1.21", "NOTES", "d", "url-d", "sig-d"⟩ : PlatformUpdate).notes =
      "NOTES" :=
  (c10_findPlatformUpdate_notes_independent
      ⟨"0.1.21", "manifest notes", "d", [("darwin-aarch64", ⟨"sig-d", "url-d"⟩)]⟩
      "other" "darwin" "aarch64" "NOTES").2
    ⟨"0.1.21", "NOTES", "d", "url-d", "sig-d"⟩ (by decide)

/-- C9: `extractVersionNotes` returns exactly the releases whose body is
non-empty after cutting at the first `"## Download"` heading and
trimming, each mapped to the tag name with the tag prefix removed and
that stripped body; releases with an absent or effectively-empty body
contribute nothing. -/
theorem string_toList_length_pos_iff (s : String) :
    0 < s.toList.length ↔ s ≠ "" := by
  constructor
  · intro hl he
    subst he
    exact absurd hl (by decide)
  · intro hne
    rcases s with ⟨data⟩
    cases data with
    | nil => exact absurd rfl hne
    | cons c cs => simp [String.toList]

theorem c9_extractVersionNotes_characterization
    (releases : List GitHubRelease) (tagPrefix : String) :
    extractVersionNotes releases tagPrefix =
      (releases.filter fun r => strippedBody r ≠ "").map
        fun r => ⟨(r.tag_name.toList.drop tagPrefix.toList.length).asString,
          strippedBody r⟩ := by
  induction releases with
  | nil => rfl
  | cons r rs ih =>
    simp only [extractVersionNotes, List.map_cons, List.filter_cons] at *
    by_cases h : strippedBody r = ""
    · have hc : ¬ 0 < (strippedBody r).toList.length := by
        rw [h]
        decide
      rw [if_neg (by simpa using hc), if_neg (by simpa using h)]
      exact ih
    · have hc : 0 < (strippedBody r).toList.length :=
        (string_toList_length_pos_iff _).mpr h
      rw [if_pos (by simpa using hc), if_pos (by simpa using h)]
      simp only [List.map_cons]
      exact congrArg (List.cons _) ih

/-! ## Claims about the HTTP handlers, routing and cache -/

/-- C2: for a Tauri update check against a cached latest release, the
update-available decision holds exactly when `findPlatformUpdate` found
a platform artifact and `compare(latest.version, currentVersion) > 0`;
when it fails the handler responds 204 with an empty body, and when it
holds it responds 200 with the resolved update payload. -/
theorem c2_handleTauriUpdateCheck_decision
    (latest : LatestJson) (storeNotes : List VersionNotes)
    (target arch currentVersion : String) :
    (∀ u : PlatformUpdate,
      findPlatformUpdate latest target arch
          (aggregateNotes storeNotes currentVersion) = some u →
      0 < compareVersions latest.version currentVersion →
      handleTauriUpdateCheck (some latest) storeNotes target arch currentVersion =
        ⟨200, RespBody.platformJson u⟩)
    ∧ (findPlatformUpdate latest target arch
          (aggregateNotes storeNotes currentVersion) = none →
      handleTauriUpdateCheck (some latest) storeNotes target arch currentVersion =
        ⟨204, RespBody.empty⟩)
    ∧ (¬ 0 < compareVersions latest.version currentVersion →
      handleTauriUpdateCheck (some latest) storeNotes target arch currentVersion =
        ⟨204, RespBody.empty⟩) := by
  refine ⟨fun u hu hcmp => ?_, fun hnone => ?_, fun hcmp => ?_⟩
  · simp [handleTauriUpdateCheck, hu, hcmp]
  · simp [handleTauriUpdateCheck, hnone]
  · cases hp : findPlatformUpdate latest target arch
        (aggregateNotes storeNotes currentVersion) with
    | none => simp [handleTauriUpdateCheck, hp]
    | some u => simp [handleTauriUpdateCheck, hp, hcmp]

theorem c2_handleTauriUpdateCheck_decision_witness :
    handleTauriUpdateCheck
        (some ⟨"0.1.21", "n", "d", [("darwin-aarch64", ⟨"sig-d", "url-d"⟩)]⟩)
        [⟨"0.1.21", "- Remember window position"⟩]
        "darwin" "aarch64" "0.1.20" =
      ⟨200, RespBody.platformJson
        ⟨"0.1.21", "- Remember window position", "d", "url-d", "sig-d"⟩⟩
    ∧ handleTauriUpdateCheck
        (some ⟨"0.1.21", "n", "d", [("darwin-aarch64", ⟨"sig-d", "url-d"⟩)]⟩)
        [⟨"0.1.21", "- Remember window position"⟩]
        "darwin" "aarch64" "0.1.21" =
      ⟨204, RespBody.empty⟩ :=
  ⟨(c2_handleTauriUpdateCheck_decision
      ⟨"0.1.21", "n", "d", [("darwin-aarch64", ⟨"sig-d", "url-d"⟩)]⟩
      [⟨"0.1.21", "- Remember window position"⟩] "darwin" "aarch64" "0.1.20").1
      ⟨"0.1.21", "- Remember window position", "d", "url-d", "sig-d"⟩
      (by decide) (by decide),
    (c2_handleTauriUpdateCheck_decision
      ⟨"0.1.21", "n", "d", [("darwin-aarch64", ⟨"sig-d", "url-d"⟩)]⟩
      [⟨"0.1.21", "- Remember window position"⟩] "darwin" "aarch64" "0.1.21").2.2
      (by decide)⟩

/-- C3: for a simple-product version check that supplies a (truthy)
currentVersion, the update-available decision is solely
`compare(latest.version, currentVersion) > 0` — no platform-key step;
when false the response is 204 with no body, and when true it is 200
with `{version, notes: aggregateNotes(allNotes, currentVersion),
pub_date}`. -/
theorem c3_handleVersionCheck_decision
    (latest : SimpleRelease) (storeNotes : List VersionNotes)
    (currentVersion : String) (htr : currentVersion ≠ "") :
    (¬ 0 < compareVersions latest.version currentVersion →
      handleVersionCheck (some latest) storeNotes (some currentVersion) =
        ⟨204, RespBody.empty⟩)
    ∧ (0 < compareVersions latest.version currentVersion →
      handleVersionCheck (some latest) storeNotes (some currentVersion) =
        ⟨200, RespBody.simpleJson
          ⟨latest.version, aggregateNotes storeNotes currentVersion,
            latest.pub_date⟩⟩) := by
  constructor
  · intro hcmp
    simp [handleVersionCheck, htr, hcmp]
  · intro hcmp
    simp [handleVersionCheck, htr, hcmp]

theorem c3_handleVersionCheck_decision_witness :
    handleVersionCheck (some ⟨"0.4.6", "- New feature", "D"⟩)
        [⟨"0.4.6", "- New feature"⟩, ⟨"0.4.5", "- Bug fix"⟩] (some "0.4.6") =
      ⟨204, RespBody.empty⟩
    ∧ handleVersionCheck (some ⟨"0.4.6", "- New feature", "D"⟩)
        [⟨"0.4.6", "- New feature"⟩, ⟨"0.4.5", "- Bug fix"⟩] (some "0.4.5") =
      ⟨200, RespBody.simpleJson ⟨"0.4.6", "- New feature", "D"⟩⟩ :=
  ⟨(c3_handleVersionCheck_decision ⟨"0.4.6", "- New feature", "D"⟩
      [⟨"0.4.6", "- New feature"⟩, ⟨"0.4.5", "- Bug fix"⟩] "0.4.6"
      (by decide)).1 (by decide),
    (c3_handleVersionCheck_decision ⟨"0.4.6", "- New feature", "D"⟩
      [⟨"0.4.6", "- New feature"⟩, ⟨"0.4.5", "- Bug fix"⟩] "0.4.5"
      (by decide)).2 (by decide)⟩

/-- C4: when the producer invocation backing a refresh fails, `get()`
returns the previous successfully fetched value when one exists
(stale-on-error) and `null` when none exists, leaving the cache state
untouched; the result type has no exception channel, so the failure is
never propagated to the caller. -/
theorem c4_cache_stale_on_error {T : Type} (st : CacheState T) (now : Nat)
    (e : String) (hrefresh : cacheIsFresh st now = false) :
    cacheGet st now (Except.error e) = (st.entry.map Prod.fst, st) := by
  simp [cacheGet, hrefresh, cacheRefresh]

theorem c4_cache_stale_on_error_witness :
    cacheGet (⟨some ("v1", 0), 5⟩ : CacheState String) 10
        (Except.error "fetch failed") = (some "v1", ⟨some ("v1", 0), 5⟩)
    ∧ cacheGet (⟨none, 5⟩ : CacheState String) 10
        (Except.error "fetch failed") = (none, ⟨none, 5⟩) :=
  ⟨c4_cache_stale_on_error ⟨some ("v1", 0), 5⟩ 10 "fetch failed" (by decide),
    c4_cache_stale_on_error ⟨none, 5⟩ 10 "fetch failed" (by decide)⟩

/-- C7 counterexample: a `/tauri/:target/:arch/:currentVersion` request
with an invalid version for a product that does not use Tauri updates is
answered 404 (the Tauri-protocol check runs first), not 400. -/
theorem c7_counterexample :
    serverRoute ⟨"simple-product", false⟩
        ["tauri", "darwin", "aarch64", "not-a-version"] none none [] =
      ⟨404, RespBody.errJson "This product does not use Tauri updates"⟩
    ∧ (serverRoute ⟨"simple-product", false⟩
        ["tauri", "darwin", "aarch64", "not-a-version"] none none []).status ≠
      400 := by
  constructor
  · decide
  · decide

/-- C7 (amended): a `/tauri/:target/:arch/:currentVersion` request on a
Tauri-enabled product, and a `/version/:currentVersion` request on any
product, whose currentVersion fails `isValid`, is answered 400 with an
"Invalid version format" error; the response does not depend on the
cached release or the notes store, so the resolver and `compare` are
never consulted with the invalid version. -/
theorem c7_invalid_version_rejected (product : ProductCfg)
    (target arch currentVersion : String) (rest : List String)
    (tauriLatest : Option LatestJson) (simpleLatest : Option SimpleRelease)
    (storeNotes : List VersionNotes) :
    (product.tauriUpdates = true → isValidVersion currentVersion = false →
      serverRoute product ["tauri", target, arch, currentVersion]
          tauriLatest simpleLatest storeNotes =
        ⟨400, RespBody.errJson "Invalid version format"⟩)
    ∧ (currentVersion ≠ "" → isValidVersion currentVersion = false →
      serverRoute product ("version" :: currentVersion :: rest)
          tauriLatest simpleLatest storeNotes =
        ⟨400, RespBody.errJson "Invalid version format"⟩) := by
  constructor
  · intro htauri hver
    simp [serverRoute, htauri, hver]
  · intro htr hver
    simp [serverRoute, strTruthy, htr, hver]

theorem c7_invalid_version_rejected_witness :
    serverRoute ⟨"tauri-product", true⟩
        ["tauri", "darwin", "aarch64", "not-a-version"] none none [] =
      ⟨400, RespBody.errJson "Invalid version format"⟩
    ∧ serverRoute ⟨"simple-product", false⟩ ["version", "bad"] none none [] =
      ⟨400, RespBody.errJson "Invalid version format"⟩ :=
  ⟨(c7_invalid_version_rejected ⟨"tauri-product", true⟩ "darwin" "aarch64"
      "not-a-version" [] none none []).1 rfl (by decide),
    (c7_invalid_version_rejected ⟨"simple-product", false⟩ "" "" "bad" []
      none none []).2 (by decide) (by decide)⟩

end UpdateServer
